import Mathlib

/-!
Shallow embedding of the smartmarket-ai backend core in Lean 4.

Covered components (translated from the Python sources):
- `backend/utils/helpers.py`: `clean_text`, `extract_keywords`, `calculate_sentiment_label`
- `backend/services/sentiment_analyzer.py`: `SentimentAnalyzer`
- `backend/utils/rate_limit.py`: `rate_limit`
- `backend/routes/meli_oauth.py`: the PKCE store and `_pop_pkce_verifier`
- `backend/services/scraper.py`: `_request_get`, `_extract_meli_item_id`,
  `scrape_product_api`, `scrape_product`, `scrape_reviews` and their fallbacks

Numeric values use `ℚ` in place of Python floats; machine text uses Lean
`String`.  Network and HTML-parsing outcomes are supplied as explicit
environment values, and Python exceptions are modelled with `Except`.
-/

namespace SmartMarket

/-- Strip leading and trailing whitespace from a character list. -/
def stripChars (l : List Char) : List Char :=
  ((l.dropWhile Char.isWhitespace).reverse.dropWhile Char.isWhitespace).reverse

/-- Python `str.strip()` (whitespace strip at both ends). -/
def pyStrip (s : String) : String := String.mk (stripChars s.data)

/-- Python `str.lower()` (ASCII case folding). -/
def pyToLower (s : String) : String := String.mk (s.data.map Char.toLower)

/-- Python `str.upper()` (ASCII case folding). -/
def pyToUpper (s : String) : String := String.mk (s.data.map Char.toUpper)

/-- Whether `pat` is a prefix of `l`. -/
def isPrefixList : List Char → List Char → Bool
  | [], _ => true
  | _ :: _, [] => false
  | p :: ps, c :: cs => p = c && isPrefixList ps cs

/-- Python `str.startswith`. -/
def pyStartsWith (s pat : String) : Bool := isPrefixList pat.data s.data

/-- Fuelled worker for `pyReplace`; `fuel` starts at the length of the list
and every step consumes at least one character, so the fuel never runs out. -/
def replaceListAux (pat repl : List Char) : Nat → List Char → List Char
  | 0, l => l
  | _ + 1, [] => []
  | fuel + 1, c :: cs =>
    if pat ≠ [] && isPrefixList pat (c :: cs) then
      repl ++ replaceListAux pat repl fuel ((c :: cs).drop pat.length)
    else c :: replaceListAux pat repl fuel cs

/-- Replace every non-overlapping occurrence of `pat` (nonempty) by `repl`,
scanning left to right. -/
def replaceList (pat repl l : List Char) : List Char :=
  replaceListAux pat repl l.length l

/-- Python `str.replace` (all occurrences). -/
def pyReplace (s pat repl : String) : String :=
  String.mk (replaceList pat.data repl.data s.data)

/-- Python `min(a, b)` on numbers (returns `a` on ties). -/
def pyMin (a b : ℚ) : ℚ := if b < a then b else a

/-- Python `max(a, b)` on numbers (returns `a` on ties). -/
def pyMax (a b : ℚ) : ℚ := if a < b then b else a

/-- Worker for `wsSplit`: `cur` holds the reversed current word. -/
def wsSplitAux (cur : List Char) : List Char → List (List Char)
  | [] => if cur = [] then [] else [cur.reverse]
  | c :: cs =>
    if c.isWhitespace then
      if cur = [] then wsSplitAux [] cs else cur.reverse :: wsSplitAux [] cs
    else wsSplitAux (c :: cur) cs

/-- Split a character list at whitespace runs, dropping empty pieces. -/
def wsSplit (l : List Char) : List (List Char) := wsSplitAux [] l

/-- Python `str.split()` with no separator: split on whitespace runs and drop
empty pieces. -/
def pySplitWs (s : String) : List String :=
  (wsSplit s.data).map String.mk

/-- A character of the Python regex class `\w` (word character). -/
def isWordChar (c : Char) : Bool := c.isAlphanum || c = '_'

/-- Python `str.isalpha()`: nonempty and all characters alphabetic. -/
def pyIsAlpha (s : String) : Bool := s ≠ "" && s.data.all Char.isAlpha

/-- Worker for `collapseWs`: `prevWs` records whether the previous character
belonged to a whitespace run already emitted as one space. -/
def collapseWsAux : Bool → List Char → List Char
  | _, [] => []
  | prevWs, c :: cs =>
    if c.isWhitespace then
      if prevWs then collapseWsAux true cs else ' ' :: collapseWsAux true cs
    else c :: collapseWsAux false cs

/-- Collapse every maximal whitespace run into a single space, as
`re.sub(r"\s+", " ", text)` does. -/
def collapseWs (l : List Char) : List Char := collapseWsAux false l

/-- Characters kept by `re.sub(r"[^\w\s.,!?-]", "", text)` in `clean_text`. -/
def keepChar (c : Char) : Bool :=
  isWordChar c || c.isWhitespace || c = '.' || c = ',' || c = '!' || c = '?' || c = '-'

/-- `helpers.clean_text`: collapse whitespace, drop characters outside the
word/basic-punctuation classes, then strip. -/
def clean_text (text : String) : String :=
  if text = "" then ""
  else
    let collapsed := String.mk (collapseWs text.data)
    let kept := String.mk (collapsed.data.filter keepChar)
    pyStrip kept

/-- `helpers.calculate_sentiment_label`: fixed thresholds 0.6 / 0.4. -/
def calculate_sentiment_label (score : ℚ) : String :=
  if score ≥ 3/5 then "positive"
  else if score ≤ 2/5 then "negative"
  else "neutral"

/-- The positive lexicon of `SentimentAnalyzer._fallback_sentiment`. -/
def positive_words : List String :=
  ["good", "great", "excellent", "amazing", "wonderful", "fantastic", "love",
   "perfect", "best", "awesome", "outstanding", "superb", "happy", "satisfied",
   "recommend", "quality", "fast", "easy",
   "bueno", "excelente", "increible", "maravilloso", "fantastico", "mejor",
   "perfecto", "encanta", "recomiendo", "satisfecho", "feliz", "calidad",
   "rapido", "facil", "cumple", "funciona", "genial"]

/-- The negative lexicon of `SentimentAnalyzer._fallback_sentiment`. -/
def negative_words : List String :=
  ["bad", "terrible", "awful", "horrible", "worst", "poor", "hate",
   "disappointed", "waste", "broken", "defective", "useless", "slow",
   "difficult", "problem", "issue", "never", "not", "don\x27t",
   "malo", "terrible", "horrible", "peor", "defectuoso", "roto", "lento",
   "dificil", "problema", "fallo", "nunca", "no", "decepcionado", "odio",
   "pobre", "nofunciona", "engaño", "estafa"]

/-- Label plus score, the dictionary produced per review by the analyzer. -/
structure SentimentScore where
  label : String
  score : ℚ
deriving DecidableEq, Repr

/-- `SentimentAnalyzer._fallback_sentiment`: bag-of-words polarity on the
lowercased text (with the `no funciona` fusion), score = pos/(pos+neg) or 0.5
when no lexicon word occurs. -/
def fallback_sentiment (text : String) : SentimentScore :=
  let words := pySplitWs (pyReplace (pyToLower text) "no funciona" "nofunciona")
  let positiveCount := (words.filter (fun w => positive_words.contains w)).length
  let negativeCount := (words.filter (fun w => negative_words.contains w)).length
  let total := positiveCount + negativeCount
  let score : ℚ := if total = 0 then 1/2 else (positiveCount : ℚ) / (total : ℚ)
  ⟨calculate_sentiment_label score, score⟩

/-- `SentimentAnalyzer._analyze_single_review`: combine the text-lexicon score
with the rating normalized to [0,1] (rating/5, clamped), averaging them unless
one of the signals is missing. -/
def analyze_single_review (text : String) (rating : Option ℚ) : SentimentScore :=
  let text_sent := fallback_sentiment text
  let rating_norm : Option ℚ :=
    match rating with
    | some r => if r > 0 then some (pyMax 0 (pyMin 1 (r / 5))) else none
    | none => none
  let combined_score : ℚ :=
    match rating_norm with
    | none => text_sent.score
    | some rn =>
      if text_sent.score = 1/2 ∧ pyStrip text = "" then rn
      else (text_sent.score + rn) / 2
  ⟨calculate_sentiment_label combined_score, combined_score⟩

/-- Stopword set of `helpers.extract_keywords`. -/
def helpers_stop_words : List String :=
  ["the", "a", "an", "and", "or", "but", "in", "on", "at", "to", "for",
   "of", "with", "is", "was", "are", "were", "been", "be", "have", "has",
   "had", "do", "does", "did", "will", "would", "could", "should", "may",
   "might", "must", "can", "this", "that", "these", "those", "i", "you",
   "he", "she", "it", "we", "they", "what", "which", "who", "when", "where",
   "why", "how", "all", "each", "every", "both", "few", "more", "most",
   "other", "some", "such", "no", "nor", "not", "only", "own", "same",
   "so", "than", "too", "very", "just", "from", "about", "into", "through",
   "during", "before", "after", "above", "below", "between", "under", "again",
   "further", "then", "once", "here", "there", "also", "its", "my", "your",
   "their", "our", "his", "her", "them", "us", "me", "him", "sample",
   "placeholder", "content", "text", "review", "example", "mock"]

/-- Stopword set of `SentimentAnalyzer._extract_sentiment_weighted_keywords`
(bilingual plus generic review terms). -/
def kw_stop_words : List String :=
  ["the", "a", "an", "and", "or", "but", "in", "on", "at", "to", "for", "of",
   "with", "is", "was", "are", "were", "been", "be", "have", "has", "had",
   "do", "does", "did", "will", "would", "could", "should", "may", "might",
   "must", "can", "this", "that", "these", "those", "i", "you", "he", "she",
   "it", "we", "they", "what", "which", "who", "when", "where", "why", "how",
   "all", "each", "every", "both", "few", "more", "most", "other", "some",
   "such", "no", "nor", "not", "only", "own", "same", "so", "than", "too",
   "very", "just", "from", "about", "into", "through", "during", "before",
   "after", "above", "below", "between", "under", "again", "further", "then",
   "once", "here", "there", "also", "its", "my", "your", "their", "our",
   "his", "her", "them", "us", "me", "him", "himself", "herself", "itself",
   "ourselves", "yourselves", "themselves",
   "el", "la", "los", "las", "un", "una", "unos", "unas", "y", "o", "pero",
   "en", "de", "con", "para", "por", "es", "son", "fue", "eran", "han", "ha",
   "haber", "tiene", "tener", "tuvo", "tuvieron", "puede", "podria", "debe",
   "deberia", "pueden", "estas", "esta", "este", "estos", "yo", "tu",
   "usted", "ustedes", "vos", "vosotros", "nosotros", "ellos", "ellas",
   "que", "cual", "quien", "cuando", "donde", "porque", "como", "todos",
   "cada", "ambos", "pocos", "mas", "menos", "otra", "otros", "algunos",
   "tal", "ninguno", "ni", "solo", "mismo", "asi", "muy", "desde", "sobre",
   "entre", "durante", "antes", "despues", "arriba", "abajo", "aqui", "alli",
   "tambien", "su", "mis", "tus", "sus", "nuestro", "nuestra", "nuestros",
   "nuestras", "mi", "le", "les", "lo", "se",
   "review", "reviews", "reseña", "reseñas", "opinion", "opiniones",
   "producto", "libro", "pelicula", "film", "movie", "page", "site",
   "website", "content", "texto", "ejemplo", "muestra"]

/-- Insertion-ordered rational-weight counter: a Python `defaultdict(float)`
together with the insertion order of its keys. -/
abbrev Counter := List (String × ℚ)

/-- Add `v` to the weight of `k`, appending `k` at the end on first sight. -/
def counterAdd : Counter → String → ℚ → Counter
  | [], k, v => [(k, v)]
  | (k0, v0) :: rest, k, v =>
    if k0 = k then (k0, v0 + v) :: rest else (k0, v0) :: counterAdd rest k v

/-- Weight of `k` in the counter, 0 when absent. -/
def counterGet (c : Counter) (k : String) : ℚ :=
  match c.find? (fun p => p.1 = k) with
  | some p => p.2
  | none => 0

/-- Insertion-ordered natural-number counter (a Python `collections.Counter`). -/
abbrev NatCounter := List (String × ℕ)

/-- Increment the count of `k`, appending `k` at the end on first sight. -/
def natCounterAdd : NatCounter → String → NatCounter
  | [], k => [(k, 1)]
  | (k0, v0) :: rest, k =>
    if k0 = k then (k0, v0 + 1) :: rest else (k0, v0) :: natCounterAdd rest k

/-- `helpers.extract_keywords`: frequency-based keyword extraction with
stopword, length and alphabetic filters; `most_common` is a stable sort by
count descending. -/
def extract_keywords (text : String) (topN : ℕ) : List String :=
  if text = "" then []
  else
    let words := pySplitWs (pyToLower text)
    let freq := words.foldl (fun (acc : NatCounter) raw =>
      let w := String.mk (raw.data.filter isWordChar)
      if 3 < w.length && !helpers_stop_words.contains w && pyIsAlpha w then
        natCounterAdd acc w
      else acc) []
    ((freq.mergeSort (fun a b => decide (b.2 ≤ a.2))).take topN).map Prod.fst

/-- A review after the per-batch cleaning step of `analyze_reviews`. -/
structure CleanedReview where
  text : String
  rating : ℚ
  review_date : Option String
deriving DecidableEq, Repr

/-- Tokenization plus filtering used for one review text inside
`_extract_sentiment_weighted_keywords`. -/
def reviewTokens (text : String) : List String :=
  (pySplitWs text).filterMap (fun raw =>
    let w := String.mk (raw.data.filter isWordChar)
    if w.length ≤ 3 || !pyIsAlpha w || kw_stop_words.contains w then none
    else some w)

/-- The positive/negative weighted counters accumulated over the zipped
(cleaned review, sentiment) pairs. -/
def buildPolarityCounters (pairs : List (CleanedReview × SentimentScore)) :
    Counter × Counter :=
  pairs.foldl (fun acc pr =>
    let text := pyToLower pr.1.text
    if text = "" then acc
    else
      let intensity := |pr.2.score - 1/2|
      if intensity ≤ 1/20 then acc
      else
        let weight := max (1/10) intensity
        if pr.2.label = "positive" then
          (reviewTokens text).foldl
            (fun (c : Counter × Counter) t => (counterAdd c.1 t weight, c.2)) acc
        else if pr.2.label = "negative" then
          (reviewTokens text).foldl
            (fun (c : Counter × Counter) t => (c.1, counterAdd c.2 t weight)) acc
        else acc) ([], [])

/-- First-occurrence deduplication (the `seen` set of the Python loops). -/
def dedupFirst : List String → List String → List String
  | [], _ => []
  | x :: xs, seen =>
    if seen.contains x then dedupFirst xs seen
    else x :: dedupFirst xs (x :: seen)

/-- The fallback fill loop of `_extract_sentiment_weighted_keywords`: append
fresh fallback keywords until `topN` entries are collected. -/
def fillKeywords (result : List String) (topN : ℕ) : List String → List String
  | [] => result
  | k :: ks =>
    if topN ≤ result.length then result
    else if result.contains k then fillKeywords result topN ks
    else fillKeywords (result ++ [k]) topN ks

/-- `SentimentAnalyzer._extract_sentiment_weighted_keywords`: rank tokens by
combined polarity weight (descending, stable) and fill from frequency-based
extraction when too few keywords survive.  The `set(...)` iteration order of
the Python source, which is unspecified, is modelled as first-occurrence
order. -/
def extract_sentiment_weighted_keywords (cleaned : List CleanedReview)
    (sentiments : List SentimentScore) (topN : ℕ) : List String :=
  if cleaned = [] ∨ sentiments = [] then []
  else
    let counters := buildPolarityCounters (cleaned.zip sentiments)
    let keys := dedupFirst (counters.1.map Prod.fst ++ counters.2.map Prod.fst) []
    let combined := keys.map (fun k => (k, counterGet counters.1 k + counterGet counters.2 k))
    let combinedSorted := (combined.mergeSort (fun a b => decide (b.2 ≤ a.2))).map Prod.fst
    let result := (dedupFirst combinedSorted []).take topN
    if result.length < max 5 (topN / 2) then
      let allTexts := (cleaned.filter (fun c => c.text ≠ "")).map (·.text)
      let fallback := extract_keywords (String.intercalate " " allTexts) topN
      fillKeywords result topN fallback
    else result

/-- Round-half-to-even on rationals, the rounding rule of Python `round`. -/
def roundHalfEven (q : ℚ) : ℤ :=
  if q - ⌊q⌋ < 1/2 then ⌊q⌋
  else if 1/2 < q - ⌊q⌋ then ⌊q⌋ + 1
  else if ⌊q⌋ % 2 = 0 then ⌊q⌋ else ⌊q⌋ + 1

/-- Python `round(q, ndigits)` on the exact rational value. -/
def pyRound (q : ℚ) (ndigits : ℕ) : ℚ :=
  ((roundHalfEven (q * (10 : ℚ) ^ ndigits) : ℚ)) / (10 : ℚ) ^ ndigits

/-- One element of the review list handed to `analyze_reviews`: the `text`,
`rating` and `review_date` dictionary entries, each possibly absent. -/
structure ReviewIn where
  text : Option String
  rating : Option ℚ
  review_date : Option String
deriving DecidableEq, Repr

/-- The `sentiment_distribution` sub-dictionary of the summary. -/
structure SentimentDist where
  positive : ℚ
  negative : ℚ
  neutral : ℚ
deriving DecidableEq, Repr

/-- The dictionary returned by `SentimentAnalyzer.analyze_reviews`. -/
structure SentimentSummary where
  avg_sentiment : ℚ
  sentiment_label : String
  total_reviews : ℕ
  positive_count : ℕ
  negative_count : ℕ
  neutral_count : ℕ
  keywords : List String
  sentiment_distribution : SentimentDist
deriving DecidableEq, Repr

/-- `SentimentAnalyzer._empty_analysis`. -/
def empty_analysis : SentimentSummary :=
  { avg_sentiment := 1/2
    sentiment_label := "neutral"
    total_reviews := 0
    positive_count := 0
    negative_count := 0
    neutral_count := 0
    keywords := []
    sentiment_distribution := ⟨0, 0, 0⟩ }

/-- `SentimentAnalyzer.analyze_reviews`: clean each review, score each one,
aggregate counts, average, label, keywords and distribution. -/
def analyze_reviews (reviews : List ReviewIn) : SentimentSummary :=
  if reviews = [] then empty_analysis
  else
    let cleaned := reviews.map (fun r =>
      CleanedReview.mk (clean_text (r.text.getD "")) (r.rating.getD 0) r.review_date)
    if cleaned = [] then empty_analysis
    else
      let sentiments := cleaned.map (fun cr => analyze_single_review cr.text (some cr.rating))
      let scores := sentiments.map (·.score)
      let avg_sentiment : ℚ := if scores = [] then 1/2 else scores.sum / (scores.length : ℚ)
      let positive_count := (sentiments.filter (fun s => s.label = "positive")).length
      let negative_count := (sentiments.filter (fun s => s.label = "negative")).length
      let neutral_count := sentiments.length - positive_count - negative_count
      let keywords := extract_sentiment_weighted_keywords cleaned sentiments 15
      let sentiment_label := calculate_sentiment_label avg_sentiment
      { avg_sentiment := pyRound avg_sentiment 3
        sentiment_label := sentiment_label
        total_reviews := reviews.length
        positive_count := positive_count
        negative_count := negative_count
        neutral_count := neutral_count
        keywords := keywords
        sentiment_distribution :=
          { positive := if sentiments ≠ [] then pyRound ((positive_count : ℚ) / (sentiments.length : ℚ) * 100) 1 else 0
            negative := if sentiments ≠ [] then pyRound ((negative_count : ℚ) / (sentiments.length : ℚ) * 100) 1 else 0
            neutral := if sentiments ≠ [] then pyRound ((neutral_count : ℚ) / (sentiments.length : ℚ) * 100) 1 else 0 } }

/-! ## Rate limiter (`backend/utils/rate_limit.py`) -/

/-- The `RATE_STATE` map: per `client_ip:path` key, the deque of admitted-call
timestamps (oldest first).  A missing key reads as the empty deque, like a
`defaultdict`. -/
abbrev RateState := String → List ℚ

/-- The purge loop of `rate_limit`: `while q and (now - q[0]) > 60: q.popleft()`. -/
def purgeOld (now : ℚ) : List ℚ → List ℚ
  | [] => []
  | t :: ts => if now - t > 60 then purgeOld now ts else t :: ts

/-- `deque(maxlen=1000).append`: drop the oldest entry when full. -/
def dequeAppend (q : List ℚ) (t : ℚ) : List ℚ :=
  if 1000 ≤ q.length then q.drop 1 ++ [t] else q ++ [t]

/-- `rate_limit.rate_limit` for one request at time `now` on `key`: purge
entries older than the 60-second window, then admit (recording `now`) iff the
remaining count is below `maxPerMinute`.  The boolean is `false` when the
Python code raises HTTP 429; the purge is visible in the returned state even
then, because the deque is mutated in place. -/
def rate_limit (st : RateState) (key : String) (now : ℚ) (maxPerMinute : ℕ) :
    Bool × RateState :=
  let q := purgeOld now (st key)
  if maxPerMinute ≤ q.length then
    (false, fun k => if k = key then q else st k)
  else
    (true, fun k => if k = key then dequeAppend q now else st k)

/-- A sequence of `rate_limit` checks for the same key at the given times. -/
def runRate (st : RateState) (key : String) (times : List ℚ) (limit : ℕ) :
    List Bool × RateState :=
  match times with
  | [] => ([], st)
  | t :: ts =>
    let r := rate_limit st key t limit
    let rest := runRate r.2 key ts limit
    (r.1 :: rest.1, rest.2)

/-! ## PKCE handshake store (`backend/routes/meli_oauth.py`) -/

/-- One `PKCE_STORE` entry: the code verifier and its creation timestamp. -/
structure PkceEntry where
  verifier : String
  ts : ℚ
deriving DecidableEq, Repr

/-- The `PKCE_STORE` dictionary, state token → entry. -/
abbrev PkceStore := String → Option PkceEntry

/-- Default of `PKCE_TTL_SECONDS` (`MELI_PKCE_TTL` unset): 600 seconds. -/
def PKCE_TTL_SECONDS : ℚ := 600

/-- `_store_pkce_state`: record the verifier under `state` at time `now`. -/
def store_pkce_state (store : PkceStore) (state verifier : String) (now : ℚ) :
    PkceStore :=
  fun k => if k = state then some ⟨verifier, now⟩ else store k

/-- `_pop_pkce_verifier` at time `now` with time-to-live `ttl`: `dict.pop`
removes the entry unconditionally; the verifier is returned only when the
entry existed and its age is within `ttl`. -/
def pop_pkce_verifier (store : PkceStore) (state : String) (now ttl : ℚ) :
    Option String × PkceStore :=
  let store1 : PkceStore := fun k => if k = state then none else store k
  match store state with
  | none => (none, store1)
  | some it => if now - it.ts > ttl then (none, store1) else (some it.verifier, store1)

/-! ## URL parsing and item-id extraction (`ProductScraper._extract_meli_item_id`) -/

/-- Split at the first occurrence of `c`: characters before it, and the
remainder after it when found. -/
def breakOnChar (c : Char) : List Char → List Char × Option (List Char)
  | [] => ([], none)
  | x :: xs =>
    if x = c then ([], some xs)
    else
      let r := breakOnChar c xs
      (x :: r.1, r.2)

/-- Split at the first occurrence of the substring `pat`: `some (before,
after)` when found. -/
def breakOnSub (pat : List Char) : List Char → Option (List Char × List Char)
  | [] => if pat = [] then some ([], []) else none
  | c :: cs =>
    if isPrefixList pat (c :: cs) then some ([], (c :: cs).drop pat.length)
    else
      match breakOnSub pat cs with
      | some r => some (c :: r.1, r.2)
      | none => none

/-- Whether `pat` occurs as a substring (Python `pat in s`). -/
def listContainsSub (pat : List Char) : List Char → Bool
  | [] => pat = []
  | c :: cs => isPrefixList pat (c :: cs) || listContainsSub pat cs

/-- Python `sub in s`. -/
def pyContains (s sub : String) : Bool := listContainsSub sub.data s.data

/-- The `path` component of `urllib.parse.urlparse`, for a URL already
stripped of its query and fragment: after `scheme://netloc` the path starts at
the first slash; without `://` the whole text is the path. -/
def urlPath (s : String) : String :=
  match breakOnSub "://".data s.data with
  | some r =>
    let netsplit := breakOnChar '/' r.2
    match netsplit.2 with
    | some after => String.mk ('/' :: after)
    | none => ""
  | none => s

/-- Split on every occurrence of `c`, keeping empty pieces (Python
`str.split(c)`). -/
def splitAllChar (c : Char) : List Char → List (List Char)
  | [] => [[]]
  | x :: xs =>
    let r := splitAllChar c xs
    if x = c then [] :: r
    else
      match r with
      | h :: t => (x :: h) :: t
      | [] => [[x]]

/-- `urllib.parse.parse_qsl` (default flags): split on `&`, skip empty
chunks, chunks without `=` and chunks with an empty value.  Percent-decoding
is not modelled; the IDs involved contain no escapes. -/
def parse_qsl (qs : String) : List (String × String) :=
  (splitAllChar '&' qs.data).filterMap (fun kv =>
    if kv = [] then none
    else
      match breakOnChar '=' kv with
      | (_, none) => none
      | (k, some v) => if v = [] then none else some (String.mk k, String.mk v))

/-- `parse_qs(qs).get(key)` as the ordered list of values for `key`. -/
def qsGetAll (qs : String) (key : String) : List String :=
  ((parse_qsl qs).filter (fun p => p.1 = key)).map Prod.snd

/-- `q.get('wid') or q.get('item_id') or []` on a parsed query string. -/
def qsWidItem (qs : String) : List String :=
  match qsGetAll qs "wid" with
  | [] => qsGetAll qs "item_id"
  | l => l

/-- `[A-Z]` (optionally also `[a-z]` under `re.IGNORECASE`). -/
def idLetter (ignoreCase : Bool) (c : Char) : Bool :=
  ('A' ≤ c && c ≤ 'Z') || (ignoreCase && ('a' ≤ c && c ≤ 'z'))

/-- Match `[A-Z]{3}-?\d{6,}` (case-insensitive when `ic`) at the start of the
character list, returning the matched characters; the digit run is greedy. -/
def matchIdAt (ic : Bool) : List Char → Option (List Char)
  | c1 :: c2 :: c3 :: rest =>
    if idLetter ic c1 && idLetter ic c2 && idLetter ic c3 then
      match rest with
      | '-' :: rest2 =>
        let digits := rest2.takeWhile Char.isDigit
        if 6 ≤ digits.length then some (c1 :: c2 :: c3 :: '-' :: digits) else none
      | _ =>
        let digits := rest.takeWhile Char.isDigit
        if 6 ≤ digits.length then some (c1 :: c2 :: c3 :: digits) else none
    else none
  | _ => none

/-- `re.search` position scan: try the matcher at each suffix, left to right. -/
def scanList {α : Type} (f : List Char → Option α) : List Char → Option α
  | [] => none
  | c :: cs =>
    match f (c :: cs) with
    | some r => some r
    | none => scanList f cs

/-- Matcher for `/p/([A-Z]{3}-?\d{6,})` with `re.IGNORECASE`, returning the
capture group. -/
def pathIdMatcher (cs : List Char) : Option (List Char) :=
  match cs with
  | '/' :: p :: '/' :: rest =>
    if p = 'p' || p = 'P' then matchIdAt true rest else none
  | _ => none

/-- `ProductScraper._extract_meli_item_id`: prefer `wid`/`item_id` in the
query, then in the fragment, then `/p/<ID>` in the path, then a general
uppercase-ID regex over the whole URL. -/
def extract_meli_item_id (url : String) : Option String :=
  let defrag := breakOnChar '#' url.data
  let fragment := String.mk (defrag.2.getD [])
  let qsplit := breakOnChar '?' defrag.1
  let query := String.mk (qsplit.2.getD [])
  let pathStr := urlPath (String.mk qsplit.1)
  match qsWidItem query with
  | v :: _ => let u := pyToUpper v; if u = "" then none else some u
  | [] =>
    match qsWidItem fragment with
    | v :: _ => let u := pyToUpper v; if u = "" then none else some u
    | [] =>
      match scanList pathIdMatcher pathStr.data with
      | some m => some (pyToUpper (String.mk m))
      | none =>
        match scanList (matchIdAt false) url.data with
        | some m => some (pyToUpper (String.mk m))
        | none => none

/-! ## Resilient GET (`ProductScraper._request_get`) -/

/-- Outcome of one `requests.get` call: a transport-level exception or a
response with a status code. -/
inductive NetOutcome where
  | exc
  | resp (status : ℕ)
deriving DecidableEq, Repr

/-- Environment for `_request_get`: the outcome of the i-th issued GET, the
outcome of the i-th call to `_refresh_access_token_if_possible` (false both
when refresh configuration is missing and when the token endpoint fails), and
the i-th `random.uniform(0, 0.5)` jitter draw. -/
structure HttpEnv where
  net : ℕ → NetOutcome
  refreshOk : ℕ → Bool
  jitter : ℕ → ℚ

/-- The exception alive at the end of a failed attempt: the transport error of
a raised `RequestException`, or the `HTTPError` of `raise_for_status`. -/
inductive ReqError where
  | transport (reqIdx : ℕ)
  | httpStatus (reqIdx status : ℕ)
deriving DecidableEq, Repr

instance {ε α : Type} [DecidableEq ε] [DecidableEq α] : DecidableEq (Except ε α) := fun x y =>
  match x, y with
  | .ok a, .ok b =>
    if h : a = b then isTrue (by rw [h])
    else isFalse (by intro hh; cases hh; exact h rfl)
  | .error a, .error b =>
    if h : a = b then isTrue (by rw [h])
    else isFalse (by intro hh; cases hh; exact h rfl)
  | .ok _, .error _ => isFalse (by intro hh; cases hh)
  | .error _, .ok _ => isFalse (by intro hh; cases hh)

/-- Trace of a single loop iteration of `_request_get`: the GET calls it
issued, the refresh calls it made, and how it ended. -/
structure AttemptTrace where
  requests : List ℕ
  refreshes : List ℕ
  result : Except ReqError ℕ
deriving DecidableEq, Repr

/-- One iteration of the `_request_get` retry loop: issue the GET; on a 401
from the Mercado Libre API host, attempt one refresh and, only if it
succeeded, re-issue the request once; finally `raise_for_status`. -/
def runAttempt (env : HttpEnv) (mlHost : Bool) (reqIdx refIdx : ℕ) : AttemptTrace :=
  match env.net reqIdx with
  | .exc => ⟨[reqIdx], [], .error (.transport reqIdx)⟩
  | .resp s =>
    if s = 401 ∧ mlHost then
      if env.refreshOk refIdx then
        match env.net (reqIdx + 1) with
        | .exc => ⟨[reqIdx, reqIdx + 1], [refIdx], .error (.transport (reqIdx + 1))⟩
        | .resp s2 =>
          ⟨[reqIdx, reqIdx + 1], [refIdx],
            if 400 ≤ s2 then .error (.httpStatus (reqIdx + 1) s2) else .ok s2⟩
      else ⟨[reqIdx], [refIdx], if 400 ≤ s then .error (.httpStatus reqIdx s) else .ok s⟩
    else ⟨[reqIdx], [], if 400 ≤ s then .error (.httpStatus reqIdx s) else .ok s⟩

/-- One attempt of `_request_get` together with the backoff slept when it
failed (`0.5 * (attempt + 1) + random.uniform(0, 0.5)`). -/
structure AttemptStep where
  attempt : ℕ
  trace : AttemptTrace
  backoff : Option ℚ
deriving DecidableEq, Repr

/-- The retry loop of `_request_get`: `fuel` is the number of attempts still
allowed after the current one; `a` is the Python loop variable `attempt`. -/
def requestGetAux (env : HttpEnv) (mlHost : Bool) :
    ℕ → ℕ → ℕ → ℕ → List AttemptStep × Except ReqError ℕ
  | 0, a, reqIdx, refIdx =>
    let t := runAttempt env mlHost reqIdx refIdx
    match t.result with
    | .ok s => ([⟨a, t, none⟩], .ok s)
    | .error e => ([⟨a, t, some (1/2 * ((a : ℚ) + 1) + env.jitter a)⟩], .error e)
  | fuel + 1, a, reqIdx, refIdx =>
    let t := runAttempt env mlHost reqIdx refIdx
    match t.result with
    | .ok s => ([⟨a, t, none⟩], .ok s)
    | .error _ =>
      let rest := requestGetAux env mlHost fuel (a + 1)
        (reqIdx + t.requests.length) (refIdx + t.refreshes.length)
      (⟨a, t, some (1/2 * ((a : ℚ) + 1) + env.jitter a)⟩ :: rest.1, rest.2)

/-- `ProductScraper._request_get` with `retries` additional attempts: the list
of attempt traces and the final outcome (`error` models re-raising the last
exception after the loop). -/
def request_get (env : HttpEnv) (mlHost : Bool) (retries : ℕ) :
    List AttemptStep × Except ReqError ℕ :=
  requestGetAux env mlHost retries 0 0 0

/-! ## Product and review acquisition (`ProductScraper`) -/

/-- A Python exception class, as far as the `except` clauses distinguish them:
`requests.exceptions.RequestException` (which includes the JSON decoding error
of `Response.json`) versus anything else. -/
inductive PyErr where
  | requestExc (msg : String)
  | otherExc (msg : String)
deriving DecidableEq, Repr

/-- Which errors an `except requests.exceptions.RequestException` catches. -/
def isRequestExc : PyErr → Bool
  | .requestExc _ => true
  | .otherExc _ => false

/-- `try: body except Exception: handler` as a value. -/
def pyTryAll {α : Type} (body : Except PyErr α) (handler : α) : α :=
  match body with
  | .ok a => a
  | .error _ => handler

/-- `try: body except requests.RequestException: handler`; other exceptions
propagate. -/
def pyTryRequestExc {α : Type} (body : Except PyErr α) (handler : α) :
    Except PyErr α :=
  match body with
  | .ok a => .ok a
  | .error e => if isRequestExc e then .ok handler else .error e

/-- Python `x or default` on an optional string. -/
def pyOrStr (o : Option String) (d : String) : String :=
  match o with
  | some s => if s = "" then d else s
  | none => d

/-- `ProductScraper._normalize_image_url`: falsy input becomes `None`; scheme
upgraded to https. -/
def normalize_image_url : Option String → Option String
  | none => none
  | some s =>
    if s = "" then none
    else
      let u := pyStrip s
      let u1 := if pyStartsWith u "//" then "https:" ++ u else u
      let u2 := if pyStartsWith u1 "http://" then "https://" ++ String.mk (u1.data.drop 7) else u1
      some u2

/-- `ProductScraper.detect_platform`. -/
def detect_platform (url : String) : String :=
  if pyContains (pyToLower url) "mercadolibre" then "mercadolibre" else "unknown"

/-- The `tld_map` lookup with default `com.ar`. -/
def meliTld (p : String) : String :=
  if p = "MLA" then "com.ar"
  else if p = "MLB" then "com.br"
  else if p = "MLM" then "com.mx"
  else if p = "MLC" then "cl"
  else if p = "MCO" then "com.co"
  else if p = "MLU" then "com.uy"
  else if p = "MLV" then "com.ve"
  else if p = "MPE" then "com.pe"
  else "com.ar"

/-- The article-page URL built from the item-id prefix. -/
def meli_article_url (itemId : String) : String :=
  "https://articulo.mercadolibre." ++ meliTld (pyToUpper (String.mk (itemId.data.take 3)))
    ++ "/" ++ itemId

/-- The `reviews` sub-dictionary of an API item payload. -/
structure MeliReviewsMeta where
  total : Option ℕ
  rating_average : Option ℚ
deriving DecidableEq, Repr

/-- The fields of the `/items/{id}` JSON payload that `scrape_product_api`
reads; `none` stands for an absent or null field. -/
structure MeliItemData where
  title : Option String
  price : Option ℚ
  permalink : Option String
  thumbnail : Option String
  pictures : Option (List (Option String))
  reviews : Option MeliReviewsMeta
deriving DecidableEq, Repr

/-- Extraction results from a fetched and parsed article page (OpenGraph /
Twitter Card / JSON-LD / gallery logic abstracted to its outcome). -/
structure HtmlParse where
  name : Option String
  image : Option String
  price : Option ℚ
deriving DecidableEq, Repr

/-- The product dictionary built by the scraper tiers.  `reviews_count` and
`rating` are `none` exactly when the corresponding keys are absent (the HTML
tiers do not produce them). -/
structure ProductSnapshot where
  name : String
  price : Option ℚ
  platform : String
  url : String
  image_url : Option String
  reviews_count : Option ℕ
  rating : Option ℚ
deriving DecidableEq, Repr

/-- One element of the `/reviews/item/{id}` payload list. -/
structure ApiReview where
  nickname : Option String
  rate : Option ℚ
  content : Option String
  date_created : Option String
deriving DecidableEq, Repr

/-- One review block extracted from the article page HTML. -/
structure HtmlReview where
  text : String
  rating : Option ℚ
deriving DecidableEq, Repr

/-- The review dictionaries produced by the acquisition layer. -/
structure RawReview where
  user_name : String
  rating : ℚ
  text : String
  review_date : String
  platform : String
deriving DecidableEq, Repr

/-- Environment of one acquisition call: configuration plus the outcome of
each network fetch (with its response parsing). -/
structure ScrapeEnv where
  access_token : Option String
  strict_api : Bool
  apiItem : Except PyErr MeliItemData
  apiReviews : Except PyErr (List ApiReview)
  htmlItem : Except PyErr HtmlParse
  htmlByUrl : Except PyErr HtmlParse
  htmlReviews : Except PyErr (List HtmlReview)
  nowIso : String

/-- Normalize a trailing `+HHMM` offset to `+HH:MM`
(`re.sub(r'([+-]\d\x7b2\x7d)(\d\x7b2\x7d)$', r'\1:\2', s)`). -/
def fixTzOffset (s : String) : String :=
  match s.data.reverse with
  | d1 :: d2 :: d3 :: d4 :: sg :: rest =>
    if d1.isDigit && d2.isDigit && d3.isDigit && d4.isDigit && (sg = '+' || sg = '-') then
      String.mk ((d1 :: d2 :: ':' :: d3 :: d4 :: sg :: rest).reverse)
    else s
  | _ => s

/-- `ProductScraper._parse_date_iso`, at the string level: empty input maps to
the current time (`nowIso`), `Z` becomes `+00:00` and a compact offset gains a
colon.  The resulting ISO text stands for the parsed datetime. -/
def parse_date_iso (nowIso : String) (s : String) : String :=
  if s = "" then nowIso
  else fixTzOffset (pyReplace s "Z" "+00:00")

/-- The placeholder snapshot returned when the HTML tier fails entirely. -/
def unknown_product_snapshot (url : String) : ProductSnapshot :=
  ⟨"Unknown Product", none, "mercadolibre", url, none, none, none⟩

/-- `ProductScraper._scrape_mercadolibre_html`: build a minimal snapshot from
the article page; every exception is absorbed into the placeholder. -/
def scrape_mercadolibre_html (env : ScrapeEnv) (itemId : String) : ProductSnapshot :=
  let article_url := meli_article_url itemId
  pyTryAll
    (do
      let p ← env.htmlItem
      pure (⟨pyOrStr p.name "Unknown Product", p.price, "mercadolibre",
        article_url, normalize_image_url p.image, none, none⟩ : ProductSnapshot))
    (unknown_product_snapshot article_url)

/-- `ProductScraper._scrape_mercadolibre_html_by_url`: same extraction applied
directly to the raw URL. -/
def scrape_mercadolibre_html_by_url (env : ScrapeEnv) (url : String) : ProductSnapshot :=
  pyTryAll
    (do
      let p ← env.htmlByUrl
      pure (⟨pyOrStr p.name "Unknown Product", p.price, "mercadolibre",
        url, normalize_image_url p.image, none, none⟩ : ProductSnapshot))
    (unknown_product_snapshot url)

/-- The placeholder test applied to the API name:
`(not api_name) or str(api_name).strip().lower() in` the placeholder set. -/
def isPlaceholderName (n : Option String) : Bool :=
  match n with
  | none => true
  | some s =>
    s = "" ||
      (let t := pyToLower (pyStrip s)
       t = "unknown product" || t = "unknown" || t = "undefined")

/-- `data.get('pictures', [...])[0].get('url', '')` guarded by the truthiness
of `data.get('pictures')`. -/
def picFirst (data : MeliItemData) : String :=
  match data.pictures with
  | some (u :: _) => u.getD ""
  | some [] => ""
  | none => ""

/-- The snapshot built in the success branch of `scrape_product_api` from the
API payload, the strict flag, and the already-computed HTML-tier snapshot
(consulted only for the name, and only on a placeholder name with strict mode
off). -/
def buildApiSnapshot (data : MeliItemData) (strict : Bool) (htmlSnap : ProductSnapshot) :
    ProductSnapshot :=
  let api_name :=
    if isPlaceholderName data.title && !strict then
      if htmlSnap.name ≠ "" then some htmlSnap.name else data.title
    else data.title
  let thumbStr := data.thumbnail.getD ""
  let imgSrc := if thumbStr ≠ "" then thumbStr else picFirst data
  { name := pyOrStr api_name "Unknown Product"
    price := data.price
    platform := "mercadolibre"
    url := data.permalink.getD ""
    image_url := normalize_image_url (some imgSrc)
    reviews_count := some ((data.reviews.map (fun m => m.total.getD 0)).getD 0)
    rating := data.reviews.bind (fun m => m.rating_average) }

/-- `ProductScraper.scrape_product_api`: without a token go straight to the
HTML tier; with one, build from the API payload, falling back to the HTML
tier on any `RequestException`. -/
def scrape_product_api (env : ScrapeEnv) (itemId : String) :
    Except PyErr ProductSnapshot :=
  match env.access_token with
  | none => .ok (scrape_mercadolibre_html env itemId)
  | some _ =>
    pyTryRequestExc
      (do
        let data ← env.apiItem
        pure (buildApiSnapshot data env.strict_api (scrape_mercadolibre_html env itemId)))
      (scrape_mercadolibre_html env itemId)

/-- `ProductScraper.scrape_product`: Mercado Libre URLs go through the item-id
or raw-URL tiers; any other platform falls through every branch and returns
the implicit Python `None`. -/
def scrape_product (env : ScrapeEnv) (url : String) :
    Except PyErr (Option ProductSnapshot) :=
  if detect_platform url = "mercadolibre" then
    match extract_meli_item_id url with
    | some itemId => (scrape_product_api env itemId).map some
    | none => .ok (some (scrape_mercadolibre_html_by_url env url))
  else .ok none

/-- Mapping of one API review payload entry to a review dictionary. -/
def rawReviewFromApi (nowIso : String) (r : ApiReview) : RawReview :=
  ⟨r.nickname.getD "Anonymous", r.rate.getD 3, r.content.getD "",
    parse_date_iso nowIso (r.date_created.getD nowIso), "mercadolibre"⟩

/-- `ProductScraper._scrape_mercadolibre_reviews`: best-effort HTML review
scrape; the first `maxReviews` blocks are kept, empty texts skipped, a falsy
rating defaults to 3.0, and every failure yields the empty list. -/
def scrape_mercadolibre_reviews (env : ScrapeEnv) (maxReviews : ℕ) :
    List RawReview :=
  pyTryAll
    (do
      let rs ← env.htmlReviews
      pure ((rs.take maxReviews).filterMap (fun r =>
        if r.text = "" then none
        else
          some ⟨"Anonymous",
            (match r.rating with
             | some x => if x = 0 then 3 else x
             | none => 3),
            r.text, env.nowIso, "mercadolibre"⟩)))
    []

/-- `ProductScraper.scrape_reviews_api`: API reviews with bearer token,
falling back to the HTML review scrape without a token or on a
`RequestException`. -/
def scrape_reviews_api (env : ScrapeEnv) (maxReviews : ℕ) :
    Except PyErr (List RawReview) :=
  match env.access_token with
  | none => .ok (scrape_mercadolibre_reviews env maxReviews)
  | some _ =>
    pyTryRequestExc
      (do
        let data ← env.apiReviews
        pure (data.map (rawReviewFromApi env.nowIso)))
      (scrape_mercadolibre_reviews env maxReviews)

/-- `ProductScraper.scrape_reviews`: Mercado Libre URLs with a resolvable item
id go to the API tier; everything else returns the empty list. -/
def scrape_reviews (env : ScrapeEnv) (url : String) (maxReviews : ℕ) :
    Except PyErr (List RawReview) :=
  if detect_platform url = "mercadolibre" then
    match extract_meli_item_id url with
    | some _ => scrape_reviews_api env maxReviews
    | none => .ok []
  else .ok []

/-! ## Theorems -/

/-- The empty text has no lexicon hits, hence the neutral score 0.5. -/
theorem fallback_sentiment_empty : fallback_sentiment "" = ⟨"neutral", 1/2⟩ := by
  have h : pySplitWs (pyReplace (pyToLower "") "no funciona" "nofunciona") = [] := by decide
  norm_num [fallback_sentiment, h, calculate_sentiment_label]

/-- For a rating in the documented 1–5 range the clamp of `rating/5` to [0,1]
is the identity. -/
theorem pyClamp_eq {r : ℚ} (h1 : 0 < r) (h2 : r ≤ 5) :
    pyMax 0 (pyMin 1 (r / 5)) = r / 5 := by
  unfold pyMin pyMax
  split_ifs <;> linarith

/-- A review is never counted both positive and negative: the two filtered
sublists together never exceed the batch. -/
theorem filter_two_labels_le (l : List SentimentScore) :
    (l.filter (fun s => s.label = "positive")).length
      + (l.filter (fun s => s.label = "negative")).length ≤ l.length := by
  induction l with
  | nil => simp
  | cons a l ih =>
    by_cases h : a.label = "positive"
    · have h2 : ¬ a.label = "negative" := fun hc => by
        rw [h] at hc; exact absurd hc (by decide)
      simp [List.filter_cons, h, h2]
      omega
    · by_cases h2 : a.label = "negative"
      · simp [List.filter_cons, h, h2]
        omega
      · simp [List.filter_cons, h, h2]
        omega

/-- C1: for every review batch passed to `SentimentAnalyzer.analyze_reviews`,
the returned summary satisfies
`positive_count + negative_count + neutral_count = total_reviews`. -/
theorem sentiment_counts_sum_to_total (reviews : List ReviewIn) :
    (analyze_reviews reviews).positive_count + (analyze_reviews reviews).negative_count
      + (analyze_reviews reviews).neutral_count = (analyze_reviews reviews).total_reviews := by
  by_cases h : reviews = []
  · subst h; rfl
  · have hc : reviews.map (fun r =>
        CleanedReview.mk (clean_text (r.text.getD "")) (r.rating.getD 0) r.review_date) ≠ [] := by
      simpa using h
    simp only [analyze_reviews, if_neg h, if_neg hc]
    have key := filter_two_labels_le ((reviews.map (fun r =>
        CleanedReview.mk (clean_text (r.text.getD "")) (r.rating.getD 0) r.review_date)).map
        (fun cr => analyze_single_review cr.text (some cr.rating)))
    simp only [List.length_map] at key ⊢
    omega

/-- C1 witness: the count identity at a concrete two-review batch. -/
theorem sentiment_counts_sum_to_total_check :
    (analyze_reviews [⟨some "excellent quality", some 5, none⟩, ⟨some "broken waste", some 1, none⟩]).positive_count
      + (analyze_reviews [⟨some "excellent quality", some 5, none⟩, ⟨some "broken waste", some 1, none⟩]).negative_count
      + (analyze_reviews [⟨some "excellent quality", some 5, none⟩, ⟨some "broken waste", some 1, none⟩]).neutral_count
      = (analyze_reviews [⟨some "excellent quality", some 5, none⟩, ⟨some "broken waste", some 1, none⟩]).total_reviews :=
  sentiment_counts_sum_to_total
    [⟨some "excellent quality", some 5, none⟩, ⟨some "broken waste", some 1, none⟩]

/-- C2: `analyze_reviews` on the empty batch returns exactly the canonical
neutral-zero summary: average 0.5, label `neutral`, all counts 0, no
keywords, all-zero distribution — and it does not fail. -/
theorem analyze_reviews_empty_batch :
    analyze_reviews [] = ⟨1/2, "neutral", 0, 0, 0, 0, [], ⟨0, 0, 0⟩⟩ := rfl

/-- C3: per-review score combination of `_analyze_single_review`: the
text-lexicon score alone when the rating is absent or not positive; the
normalized rating `rating/5` alone when the text score is exactly 0.5 and the
(stripped) text is empty; the arithmetic mean of the two otherwise (ratings
taken in the documented 1–5 range so that the [0,1] clamp is inert); and the
concrete instance: text `""` with rating 5 scores 1.0 and is labelled
positive. -/
theorem single_review_score_combination :
    (∀ t : String, (analyze_single_review t none).score = (fallback_sentiment t).score)
    ∧ (∀ (t : String) (r : ℚ), r ≤ 0 →
        (analyze_single_review t (some r)).score = (fallback_sentiment t).score)
    ∧ (∀ (t : String) (r : ℚ), 0 < r → r ≤ 5 →
        (fallback_sentiment t).score = 1/2 → pyStrip t = "" →
        (analyze_single_review t (some r)).score = r / 5)
    ∧ (∀ (t : String) (r : ℚ), 0 < r → r ≤ 5 →
        ¬((fallback_sentiment t).score = 1/2 ∧ pyStrip t = "") →
        (analyze_single_review t (some r)).score
          = ((fallback_sentiment t).score + r / 5) / 2)
    ∧ analyze_single_review "" (some 5) = ⟨"positive", 1⟩ := by
  refine ⟨?_, ?_, ?_, ?_, ?_⟩
  · intro t; simp [analyze_single_review]
  · intro t r h
    have h0 : ¬ (r > 0) := not_lt.mpr h
    simp [analyze_single_review, h0]
  · intro t r h1 h2 h3 h4
    simp [analyze_single_review, h1, h3, h4, pyClamp_eq h1 h2]
  · intro t r h1 h2 h
    simp [analyze_single_review, h1, h, pyClamp_eq h1 h2]
    intro h5 h6
    exact absurd ⟨by rw [h5]; norm_num, h6⟩ h
  · have h6 : pyStrip "" = "" := by decide
    simp [analyze_single_review, fallback_sentiment_empty, h6]
    norm_num [pyMin, pyMax, calculate_sentiment_label]

/-- C3 witness: the rating-alone branch applied at text `""`, rating 5. -/
theorem single_review_score_combination_check :
    (0:ℚ) < 5 ∧ (5:ℚ) ≤ 5 ∧ (analyze_single_review "" (some 5)).score = 5 / 5 :=
  ⟨by norm_num, by norm_num,
    single_review_score_combination.2.2.1 "" 5 (by norm_num) (by norm_num)
      (by rw [fallback_sentiment_empty]) (by decide)⟩

/-- `dict.pop` semantics of the PKCE consume: the entry is gone afterwards,
whatever the TTL outcome was. -/
theorem pkce_pop_removes (store : PkceStore) (state : String) (now ttl : ℚ) :
    (pop_pkce_verifier store state now ttl).2 state = none := by
  simp only [pop_pkce_verifier]
  cases h : store state with
  | none => simp
  | some it => by_cases hc : now - it.ts > ttl <;> simp [hc]

/-- Consuming an absent state yields nothing. -/
theorem pkce_pop_absent (store : PkceStore) (state : String) (now ttl : ℚ)
    (h : store state = none) : (pop_pkce_verifier store state now ttl).1 = none := by
  simp [pop_pkce_verifier, h]

/-- C6: `_pop_pkce_verifier` removes the entry on every lookup regardless of
the TTL outcome, so a second consume of the same state returns absent; and a
consume whose entry has outlived the TTL returns absent even if the entry was
never consumed before. -/
theorem pkce_consume_single_use :
    (∀ (store : PkceStore) (state : String) (now ttl : ℚ),
        (pop_pkce_verifier store state now ttl).2 state = none)
    ∧ (∀ (store : PkceStore) (state : String) (now1 ttl1 now2 ttl2 : ℚ),
        (pop_pkce_verifier (pop_pkce_verifier store state now1 ttl1).2 state now2 ttl2).1 = none)
    ∧ (∀ (store : PkceStore) (state : String) (now ttl : ℚ) (e : PkceEntry),
        store state = some e → now - e.ts > ttl →
        (pop_pkce_verifier store state now ttl).1 = none) :=
  ⟨pkce_pop_removes,
   fun store state now1 ttl1 now2 ttl2 =>
     pkce_pop_absent _ state now2 ttl2 (pkce_pop_removes store state now1 ttl1),
   fun _ _ now ttl e he hexp => by
     simp [pop_pkce_verifier, he, hexp]⟩

/-- A concrete store holding one never-consumed entry created at time 0. -/
def pkceStoreEx : PkceStore :=
  fun k => if k = "state1" then some ⟨"verifier1", 0⟩ else none

/-- C6 witness: at the default 600-second TTL, consuming the entry 601
seconds after creation returns absent. -/
theorem pkce_consume_single_use_check :
    (pop_pkce_verifier pkceStoreEx "state1" 601 PKCE_TTL_SECONDS).1 = none :=
  pkce_consume_single_use.2.2 pkceStoreEx "state1" 601 PKCE_TTL_SECONDS ⟨"verifier1", 0⟩
    (by decide) (by norm_num [PKCE_TTL_SECONDS])

/-- The purge loop leaves a queue alone when no entry is older than the
window. -/
theorem purgeOld_no_drop {now : ℚ} {q : List ℚ} (h : ∀ t ∈ q, ¬(now - t > 60)) :
    purgeOld now q = q := by
  cases q with
  | nil => rfl
  | cons a q => simp only [purgeOld]; rw [if_neg (h a (by simp))]

/-- The purge loop empties a queue whose entries are all older than the
window. -/
theorem purgeOld_all_drop {now : ℚ} : ∀ {q : List ℚ}, (∀ t ∈ q, now - t > 60) →
    purgeOld now q = []
  | [], _ => rfl
  | a :: q, h => by
    simp only [purgeOld]
    rw [if_pos (h a (by simp))]
    exact purgeOld_all_drop (fun t ht => h t (by simp [ht]))

/-- A run of admission checks whose times all lie in one 60-second span, with
enough head-room below the limit, admits every call and records every
timestamp, touching no other key. -/
theorem runRate_all_admitted (key : String) (limit : ℕ) (hlimit : limit ≤ 1000)
    (lo hi : ℚ) (hwin : hi - lo ≤ 60) :
    ∀ (times : List ℚ) (st : RateState) (acc : List ℚ),
      st key = acc →
      (∀ t ∈ acc, lo ≤ t ∧ t ≤ hi) →
      (∀ t ∈ times, lo ≤ t ∧ t ≤ hi) →
      acc.length + times.length ≤ limit →
      (runRate st key times limit).1 = List.replicate times.length true
      ∧ (runRate st key times limit).2 key = acc ++ times
      ∧ ∀ k, k ≠ key → (runRate st key times limit).2 k = st k := by
  intro times
  induction times with
  | nil => intro st acc hacc _ _ _; simp [runRate, hacc]
  | cons t ts ih =>
    intro st acc hacc haccB htsB hlen
    have htB := htsB t (by simp)
    have hnp : purgeOld t (st key) = acc := by
      rw [hacc]
      exact purgeOld_no_drop (fun x hx => by
        have := haccB x hx
        push_neg
        linarith [htB.1, htB.2, this.1, this.2])
    have hlt : ¬ (limit ≤ (purgeOld t (st key)).length) := by
      rw [hnp]; simp at hlen ⊢; omega
    have happ : dequeAppend (purgeOld t (st key)) t = acc ++ [t] := by
      rw [hnp]
      unfold dequeAppend
      rw [if_neg (by simp at hlen; omega)]
    have hst' : (fun k => if k = key then dequeAppend (purgeOld t (st key)) t else st k) key
        = acc ++ [t] := by simp [happ]
    obtain ⟨ih1, ih2, ih3⟩ := ih
      (fun k => if k = key then dequeAppend (purgeOld t (st key)) t else st k)
      (acc ++ [t]) hst'
      (by
        intro x hx
        rcases List.mem_append.mp hx with h1 | h1
        · exact haccB x h1
        · simp at h1; subst h1; exact htB)
      (fun x hx => htsB x (by simp [hx]))
      (by simp at hlen ⊢; omega)
    simp only [runRate, rate_limit, if_neg hlt]
    refine ⟨?_, ?_, ?_⟩
    · simp only [List.length_cons, List.replicate_succ]
      rw [← ih1]
    · rw [ih2]
      simp
    · intro k hk
      rw [ih3 k hk]
      simp [hk]

/-- Sequential admission checks distribute over list append. -/
theorem runRate_append (st : RateState) (key : String) (l1 l2 : List ℚ) (limit : ℕ) :
    runRate st key (l1 ++ l2) limit
      = ((runRate st key l1 limit).1 ++ (runRate (runRate st key l1 limit).2 key l2 limit).1,
         (runRate (runRate st key l1 limit).2 key l2 limit).2) := by
  induction l1 generalizing st with
  | nil => simp [runRate]
  | cons a l1 ih => simp [runRate, ih]

/-- A single check admits iff the purged queue is below the limit, and then
records the new timestamp. -/
theorem rate_limit_check_spec (s : RateState) (k : String) (n : ℚ) (l : ℕ) :
    ((rate_limit s k n l).1 = true ↔ (purgeOld n (s k)).length < l)
    ∧ ((rate_limit s k n l).1 = true →
        (rate_limit s k n l).2 k = dequeAppend (purgeOld n (s k)) n) := by
  constructor
  · unfold rate_limit
    by_cases h : l ≤ (purgeOld n (s k)).length
    · simp [h]
    · simp [h]
      omega
  · intro h
    unfold rate_limit at h ⊢
    by_cases hc : l ≤ (purgeOld n (s k)).length
    · simp [hc] at h
    · simp [hc]

/-- C7: with limit 10 over the 60-second window, and for any key starting
from an empty queue, ten calls inside one window span are all admitted, an
eleventh call inside the same span is rejected, and a later call made more
than 60 seconds after each recorded timestamp is admitted again; moreover
each check purges expired timestamps first and then admits (recording the new
timestamp) iff the remaining count is below the limit. -/
theorem rate_limiter_sliding_window
    (st : RateState) (key : String) (ts : List ℚ) (t11 tpast lo : ℚ)
    (h0 : st key = [])
    (hlen : ts.length = 10)
    (hts : ∀ t ∈ ts, lo ≤ t ∧ t ≤ lo + 60)
    (h11 : lo ≤ t11 ∧ t11 ≤ lo + 60)
    (hpast : ∀ t ∈ ts, tpast - t > 60) :
    (runRate st key (ts ++ [t11]) 10).1 = List.replicate 10 true ++ [false]
    ∧ (rate_limit (runRate st key (ts ++ [t11]) 10).2 key tpast 10).1 = true
    ∧ (∀ (s : RateState) (k : String) (n : ℚ) (l : ℕ),
        ((rate_limit s k n l).1 = true ↔ (purgeOld n (s k)).length < l)
        ∧ ((rate_limit s k n l).1 = true →
            (rate_limit s k n l).2 k = dequeAppend (purgeOld n (s k)) n)) := by
  obtain ⟨r1, r2, r3⟩ := runRate_all_admitted key 10 (by norm_num) lo (lo + 60)
    (by linarith) ts st [] h0 (by simp) hts (by simp [hlen])
  have hnp11 : purgeOld t11 ((runRate st key ts 10).2 key) = ts := by
    rw [r2]
    simp only [List.nil_append]
    exact purgeOld_no_drop (fun x hx => by
      have := hts x hx
      push_neg
      linarith [h11.1, h11.2])
  have hrej : (10 : ℕ) ≤ (purgeOld t11 ((runRate st key ts 10).2 key)).length := by
    rw [hnp11, hlen]
  rw [runRate_append]
  have hsingle1 : (runRate (runRate st key ts 10).2 key [t11] 10).1 = [false] := by
    simp only [runRate, rate_limit, if_pos hrej]
  have hsingle2 : (runRate (runRate st key ts 10).2 key [t11] 10).2 key = ts := by
    simp only [runRate, rate_limit, if_pos hrej]
    simp [hnp11]
  refine ⟨?_, ?_, rate_limit_check_spec⟩
  · rw [r1, hsingle1, hlen]
  · have hempty : purgeOld tpast ((runRate (runRate st key ts 10).2 key [t11] 10).2 key) = [] := by
      rw [hsingle2]
      exact purgeOld_all_drop hpast
    unfold rate_limit
    rw [hempty]
    simp

/-- C7 witness: ten calls at seconds 0–9, one more at second 30 (rejected),
then one at second 100 (admitted again). -/
theorem rate_limiter_sliding_window_check :
    (runRate (fun _ => []) "1.2.3.4:/api/analyze" ([0,1,2,3,4,5,6,7,8,9] ++ [30]) 10).1
        = List.replicate 10 true ++ [false]
    ∧ (rate_limit (runRate (fun _ => []) "1.2.3.4:/api/analyze"
        ([0,1,2,3,4,5,6,7,8,9] ++ [30]) 10).2 "1.2.3.4:/api/analyze" 100 10).1 = true :=
  let h := rate_limiter_sliding_window (fun _ => []) "1.2.3.4:/api/analyze"
    [0,1,2,3,4,5,6,7,8,9] 30 100 0 rfl rfl
    (by intro t ht; fin_cases ht <;> norm_num)
    (by norm_num)
    (by intro t ht; fin_cases ht <;> norm_num)
  ⟨h.1, h.2.1⟩

/-- C10: a rejected check changes the key's queue only by the purge — no new
timestamp is recorded, and no other key is touched. -/
theorem rate_limit_reject_purges_only (st : RateState) (key : String) (now : ℚ) (limit : ℕ)
    (h : (rate_limit st key now limit).1 = false) :
    (rate_limit st key now limit).2 key = purgeOld now (st key)
    ∧ ∀ k, k ≠ key → (rate_limit st key now limit).2 k = st k := by
  unfold rate_limit at h ⊢
  by_cases hc : limit ≤ (purgeOld now (st key)).length
  · refine ⟨by simp [hc], ?_⟩
    intro k hk
    simp [hc, hk]
  · simp [hc] at h

/-- A key whose queue already holds ten fresh timestamps. -/
def rateStateEx : RateState := fun _ => [0, 0, 0, 0, 0, 0, 0, 0, 0, 0]

/-- C10 witness: a rejected call at second 30 leaves exactly the purged
queue. -/
theorem rate_limit_reject_purges_only_check :
    (rate_limit rateStateEx "1.2.3.4:/api/analyze" 30 10).2 "1.2.3.4:/api/analyze"
      = purgeOld 30 (rateStateEx "1.2.3.4:/api/analyze") :=
  (rate_limit_reject_purges_only rateStateEx "1.2.3.4:/api/analyze" 30 10
    (by norm_num [rate_limit, purgeOld, rateStateEx])).1

/-- C8: item-id derivation is a pure function of the URL trying the query /
fragment parameter first, then the `/p/<ID>` path segment, then a general
ID regex: on `https://x.com/p/ABC1234567?wid=DEF999` the query parameter wins
and yields `DEF999`, while the same URL without the parameter yields the path
match `ABC1234567`; in general a nonempty `wid`/`item_id` value decides the
result. -/
theorem extract_item_id_strategy_order :
    extract_meli_item_id "https://x.com/p/ABC1234567?wid=DEF999" = some "DEF999"
    ∧ extract_meli_item_id "https://x.com/p/ABC1234567" = some "ABC1234567"
    ∧ (∀ (url v : String) (vs : List String),
        qsWidItem (String.mk ((breakOnChar '?' (breakOnChar '#' url.data).1).2.getD [])) = v :: vs →
        extract_meli_item_id url
          = (if pyToUpper v = "" then none else some (pyToUpper v))) := by
  refine ⟨by decide, by decide, ?_⟩
  intro url v vs h
  simp [extract_meli_item_id, h]

/-- C8 witness: the query of the example URL parses to the single `wid` value
`DEF999`, and the parameter strategy decides the result. -/
theorem extract_item_id_strategy_order_check :
    qsWidItem "wid=DEF999" = ["DEF999"]
    ∧ extract_meli_item_id "https://x.com/p/ABC1234567?wid=DEF999"
        = (if pyToUpper "DEF999" = "" then none else some (pyToUpper "DEF999")) :=
  ⟨by decide,
   extract_item_id_strategy_order.2.2 "https://x.com/p/ABC1234567?wid=DEF999" "DEF999" []
     (by decide)⟩

/-- C9: in the API tier, price, url, image, review count and rating of the
snapshot come solely from the API payload — they do not depend on the scrape
tier — and the scrape tier is consulted only for the name, only when the API
name is missing or a placeholder and strict mode is off; with a sound API
name, or in strict mode, the whole snapshot is independent of the scrape
tier. -/
theorem api_tier_merges_name_only :
    ∀ (data : MeliItemData) (strict : Bool) (h1 h2 : ProductSnapshot),
      ((buildApiSnapshot data strict h1).price = data.price
        ∧ (buildApiSnapshot data strict h1).url = data.permalink.getD ""
        ∧ (buildApiSnapshot data strict h1).reviews_count
            = some ((data.reviews.map (fun m => m.total.getD 0)).getD 0)
        ∧ (buildApiSnapshot data strict h1).rating = data.reviews.bind (fun m => m.rating_average))
      ∧ ((buildApiSnapshot data strict h1).price = (buildApiSnapshot data strict h2).price
        ∧ (buildApiSnapshot data strict h1).url = (buildApiSnapshot data strict h2).url
        ∧ (buildApiSnapshot data strict h1).image_url = (buildApiSnapshot data strict h2).image_url
        ∧ (buildApiSnapshot data strict h1).reviews_count = (buildApiSnapshot data strict h2).reviews_count
        ∧ (buildApiSnapshot data strict h1).rating = (buildApiSnapshot data strict h2).rating)
      ∧ (isPlaceholderName data.title = false ∨ strict = true →
          buildApiSnapshot data strict h1 = buildApiSnapshot data strict h2)
      ∧ (∀ (env : ScrapeEnv) (itemId : String) (t : String),
          env.access_token = some t → env.apiItem = .ok data → env.strict_api = strict →
          scrape_product_api env itemId
            = .ok (buildApiSnapshot data strict (scrape_mercadolibre_html env itemId))) := by
  intro data strict h1 h2
  refine ⟨⟨rfl, rfl, rfl, rfl⟩, ⟨rfl, rfl, rfl, rfl, rfl⟩, ?_, ?_⟩
  · intro hc
    rcases hc with hc | hc
    · simp [buildApiSnapshot, hc]
    · simp [buildApiSnapshot, hc]
  · intro env itemId t htok happ hstrict
    simp [scrape_product_api, htok, happ, pyTryRequestExc, hstrict]

/-- A concrete API item payload with a sound name. -/
def meliDataEx : MeliItemData :=
  ⟨some "Samsung Galaxy A54", some 999, some "https://www.mercadolibre.com.ar/p/MLA123",
   some "//http2.mlstatic.com/x.jpg", none, some ⟨some 25, some (9/2)⟩⟩

/-- A scrape-tier snapshot. -/
def htmlSnapA : ProductSnapshot :=
  ⟨"From HTML A", some 1, "mercadolibre", "https://a", some "https://a.jpg", none, none⟩

/-- A different scrape-tier snapshot. -/
def htmlSnapB : ProductSnapshot :=
  ⟨"From HTML B", none, "mercadolibre", "https://b", none, none, none⟩

/-- C9 witness: on a payload with a sound name, the snapshot ignores the
scrape tier entirely and takes its price from the payload. -/
theorem api_tier_merges_name_only_check :
    (buildApiSnapshot meliDataEx false htmlSnapA).price = meliDataEx.price
    ∧ buildApiSnapshot meliDataEx false htmlSnapA = buildApiSnapshot meliDataEx false htmlSnapB :=
  ⟨(api_tier_merges_name_only meliDataEx false htmlSnapA htmlSnapB).1.1,
   (api_tier_merges_name_only meliDataEx false htmlSnapA htmlSnapB).2.2.1
     (Or.inl (by decide))⟩

/-- An acquisition environment in which every network operation fails with a
transport error and no token is configured: total acquisition failure. -/
def scrapeEnvFail : ScrapeEnv :=
  ⟨none, false, .error (.requestExc "ConnectTimeout"), .error (.requestExc "ConnectTimeout"),
   .error (.requestExc "ConnectTimeout"), .error (.requestExc "ConnectTimeout"),
   .error (.requestExc "ConnectTimeout"), "2026-01-01T00:00:00"⟩

/-- C4: on a non-Mercado-Libre URL, `scrape_product` falls through every
branch (the generic fallback is commented out) and returns the implicit
Python `None` instead of the placeholder snapshot the claim promises, while
`scrape_reviews` does return the empty list; on Mercado Libre URLs the
placeholder / empty-list contract does hold under total failure.  (No branch
raises.) -/
theorem scrape_product_nonml_returns_none :
    scrape_product scrapeEnvFail "https://example.com/item" = .ok none
    ∧ scrape_reviews scrapeEnvFail "https://example.com/item" 50 = .ok []
    ∧ scrape_product scrapeEnvFail "https://articulo.mercadolibre.com.ar/MLA-123456789-x"
        = .ok (some (unknown_product_snapshot "https://articulo.mercadolibre.com.ar/MLA-123456789"))
    ∧ scrape_reviews scrapeEnvFail "https://articulo.mercadolibre.com.ar/MLA-123456789-x" 50
        = .ok [] := by
  refine ⟨by decide, by decide, ?_, by decide⟩
  decide

/-- Per-attempt behaviour of the 401-refresh path: at most one refresh per
attempt; exactly two GETs iff the first response was a 401 from the ML host
and the refresh succeeded; otherwise one GET; and a refresh is only ever
attempted after a 401 from the ML host. -/
theorem runAttempt_spec (env : HttpEnv) (mlHost : Bool) (reqIdx refIdx : ℕ) :
    (runAttempt env mlHost reqIdx refIdx).refreshes.length ≤ 1
    ∧ ((runAttempt env mlHost reqIdx refIdx).requests.length = 2
        ↔ env.net reqIdx = .resp 401 ∧ mlHost = true ∧ env.refreshOk refIdx = true)
    ∧ ((runAttempt env mlHost reqIdx refIdx).requests.length = 1
        ∨ (runAttempt env mlHost reqIdx refIdx).requests.length = 2)
    ∧ ((runAttempt env mlHost reqIdx refIdx).refreshes ≠ [] →
        env.net reqIdx = .resp 401 ∧ mlHost = true) := by
  unfold runAttempt
  cases h : env.net reqIdx with
  | exc => simp
  | resp s =>
    by_cases h1 : s = 401 ∧ mlHost = true
    · obtain ⟨hs, hm⟩ := h1
      subst hs
      cases h2 : env.refreshOk refIdx
      · simp [hm, h2]
      · cases h3 : env.net (reqIdx + 1) <;> simp [hm, h2, h3]
    · simp [h1]
      intro hnet hm
      exact absurd ⟨hnet, hm⟩ h1

/-- The backoff of attempt `a` lies in `[0.5*(a+1), 0.5*(a+1) + 0.5)` when
the jitter is drawn from `[0, 0.5)`. -/
theorem backoff_bounds (env : HttpEnv) (hj : ∀ i, 0 ≤ env.jitter i ∧ env.jitter i < 1/2)
    (a : ℕ) :
    1/2 * ((a : ℚ) + 1) ≤ 1/2 * ((a : ℚ) + 1) + env.jitter a
    ∧ 1/2 * ((a : ℚ) + 1) + env.jitter a < 1/2 * ((a : ℚ) + 1) + 1/2 := by
  have := hj a
  constructor <;> linarith [this.1, this.2]

/-- Loop invariant of the retry loop: the attempt count is bounded by the
fuel, every backoff obeys the formula bounds, and an error outcome means the
fuel was exhausted with the final error coming from the last attempt. -/
theorem requestGetAux_spec (env : HttpEnv) (mlHost : Bool)
    (hj : ∀ i, 0 ≤ env.jitter i ∧ env.jitter i < 1/2) :
    ∀ (fuel a reqIdx refIdx : ℕ),
      (requestGetAux env mlHost fuel a reqIdx refIdx).1.length ≤ fuel + 1
      ∧ (∀ st ∈ (requestGetAux env mlHost fuel a reqIdx refIdx).1,
          ∀ q, st.backoff = some q →
          1/2 * ((st.attempt : ℚ) + 1) ≤ q ∧ q < 1/2 * ((st.attempt : ℚ) + 1) + 1/2)
      ∧ (∀ e, (requestGetAux env mlHost fuel a reqIdx refIdx).2 = .error e →
          (requestGetAux env mlHost fuel a reqIdx refIdx).1.length = fuel + 1
          ∧ ((requestGetAux env mlHost fuel a reqIdx refIdx).1.getLast?.map
              (fun st => st.trace.result)) = some (.error e)) := by
  intro fuel
  induction fuel with
  | zero =>
    intro a reqIdx refIdx
    cases hres : (runAttempt env mlHost reqIdx refIdx).result with
    | ok s =>
      simp only [requestGetAux, hres]
      refine ⟨by simp, ?_, ?_⟩
      · intro st hst q hq
        simp at hst
        subst hst
        simp at hq
      · intro e he
        simp at he
    | error e0 =>
      simp only [requestGetAux, hres]
      refine ⟨by simp, ?_, ?_⟩
      · intro st hst q hq
        simp at hst
        subst hst
        simp at hq
        subst hq
        refine ⟨?_, ?_⟩ <;> simp <;> linarith [(hj a).1, (hj a).2]
      · intro e he
        simp at he
        subst he
        refine ⟨by simp, ?_⟩
        simp [List.getLast?, hres]
  | succ fuel ih =>
    intro a reqIdx refIdx
    cases hres : (runAttempt env mlHost reqIdx refIdx).result with
    | ok s =>
      simp only [requestGetAux, hres]
      refine ⟨by simp, ?_, ?_⟩
      · intro st hst q hq
        simp at hst
        subst hst
        simp at hq
      · intro e he
        simp at he
    | error e0 =>
      simp only [requestGetAux, hres]
      obtain ⟨ih1, ih2, ih3⟩ := ih (a + 1)
        (reqIdx + (runAttempt env mlHost reqIdx refIdx).requests.length)
        (refIdx + (runAttempt env mlHost reqIdx refIdx).refreshes.length)
      refine ⟨?_, ?_, ?_⟩
      · simp only [List.length_cons]
        omega
      · intro st hst q hq
        simp only [List.mem_cons] at hst
        rcases hst with hst | hst
        · subst hst
          simp at hq
          subst hq
          refine ⟨?_, ?_⟩ <;> simp <;> linarith [(hj a).1, (hj a).2]
        · exact ih2 st hst q hq
      · intro e he
        obtain ⟨hlen, hlast⟩ := ih3 e he
        constructor
        · simp only [List.length_cons, hlen]
        · have hne : (requestGetAux env mlHost fuel (a + 1)
              (reqIdx + (runAttempt env mlHost reqIdx refIdx).requests.length)
              (refIdx + (runAttempt env mlHost reqIdx refIdx).refreshes.length)).1 ≠ [] := by
            intro hc
            rw [hc] at hlen
            simp at hlen
          rw [← hlast]
          congr 1
          cases hl : (requestGetAux env mlHost fuel (a + 1)
              (reqIdx + (runAttempt env mlHost reqIdx refIdx).requests.length)
              (refIdx + (runAttempt env mlHost reqIdx refIdx).refreshes.length)).1 with
          | nil => exact absurd hl hne
          | cons b l => simp [List.getLast?_cons_cons]

/-- C5: within each attempt of `_request_get`, a 401 from the Mercado Libre
API host triggers at most one synchronous refresh followed by exactly one
immediate re-issue (exactly when the refresh succeeded; no recursion);
transport-level failures are retried up to `retries` additional attempts with
backoff `0.5*(attempt+1)` plus jitter in `[0, 0.5)`; and when every attempt
fails, the error raised is the one of the last attempt, after exactly
`retries + 1` attempts. -/
theorem request_get_retry_refresh_spec (env : HttpEnv) (mlHost : Bool) (retries : ℕ)
    (hj : ∀ i, 0 ≤ env.jitter i ∧ env.jitter i < 1/2) :
    (∀ reqIdx refIdx,
        (runAttempt env mlHost reqIdx refIdx).refreshes.length ≤ 1
        ∧ ((runAttempt env mlHost reqIdx refIdx).requests.length = 2
            ↔ env.net reqIdx = .resp 401 ∧ mlHost = true ∧ env.refreshOk refIdx = true)
        ∧ ((runAttempt env mlHost reqIdx refIdx).requests.length = 1
            ∨ (runAttempt env mlHost reqIdx refIdx).requests.length = 2)
        ∧ ((runAttempt env mlHost reqIdx refIdx).refreshes ≠ [] →
            env.net reqIdx = .resp 401 ∧ mlHost = true))
    ∧ (request_get env mlHost retries).1.length ≤ retries + 1
    ∧ (∀ st ∈ (request_get env mlHost retries).1, ∀ q, st.backoff = some q →
        1/2 * ((st.attempt : ℚ) + 1) ≤ q ∧ q < 1/2 * ((st.attempt : ℚ) + 1) + 1/2)
    ∧ (∀ e, (request_get env mlHost retries).2 = .error e →
        (request_get env mlHost retries).1.length = retries + 1
        ∧ ((request_get env mlHost retries).1.getLast?.map (fun st => st.trace.result))
            = some (.error e)) :=
  have h := requestGetAux_spec env mlHost hj retries 0 0 0
  ⟨fun reqIdx refIdx => runAttempt_spec env mlHost reqIdx refIdx, h.1, h.2.1, h.2.2⟩

/-- An environment in which every GET raises a transport error and the jitter
draws are all zero. -/
def httpEnvEx : HttpEnv := ⟨fun _ => .exc, fun _ => false, fun _ => 0⟩

/-- C5 witness: with two extra retries and all-transport-failures, the loop
runs three attempts and re-raises the transport error of the third GET. -/
theorem request_get_retry_refresh_spec_check :
    (request_get httpEnvEx true 2).1.length = 3
    ∧ ((request_get httpEnvEx true 2).1.getLast?.map (fun st => st.trace.result))
        = some (.error (.transport 2)) :=
  let h := request_get_retry_refresh_spec httpEnvEx true 2
    (fun _ => ⟨by norm_num [httpEnvEx], by norm_num [httpEnvEx]⟩)
  h.2.2.2 (.transport 2) (by decide)

end SmartMarket
